import Mathlib

/-!
Shallow embedding of the clinical-trials scraper (src/scraper.py) and proofs
of the specification's claims about it.

The embedding covers:
* the JSON payload model and the Postgres generated columns
  (`has_results`, `overall_status`, `phase`) of `create_tables`;
* the upsert/merge SQL of `ClinicalTrialsDB.insert_trial`, in particular the
  `position(... in ...)`-based substring check used to merge `search_terms`;
* the query-parameter construction of `ClinicalTrialsClient.search_studies`;
* the tenacity retry decorator `retry(stop=stop_after_attempt(3),
  wait=wait_exponential(multiplier=1, min=4, max=10))` on `search_studies`;
* the page-processing loop of `scrape_trials`, generic over the network
  (a fetch oracle mapping page tokens to responses) and fuelled, so that it
  is executable and totally defined.

Timestamps (SQL `NOW()`) are modelled as an explicit natural-number clock
passed to each write.
-/

/-- A JSON document, as stored in the JSONB `data` column and as returned by
the search API. Numbers are modelled as integers (none of the fields the
scraper touches are fractional). -/
inductive Json where
  | null : Json
  | bool : Bool → Json
  | str : String → Json
  | num : Int → Json
  | arr : List Json → Json
  | obj : List (String × Json) → Json
deriving Repr, BEq

/-- Lookup of a key among an object's fields: the value under the first
matching key. -/
def Json.lookupKey : List (String × Json) → String → Option Json
  | [], _ => none
  | (k', v) :: rest, k => if k' = k then some v else Json.lookupKey rest k

/-- Object field access, the Postgres `->` operator on a key: the value for
the first matching key, or SQL NULL when the document is not an object or the
key is absent. -/
def Json.getField : Json → String → Option Json
  | Json.obj fields, k => Json.lookupKey fields k
  | _, _ => none

mutual
/-- Serialization of a JSON value to text, the Postgres `::text` cast of a
jsonb value (string values keep their surrounding quotes). -/
def Json.serialize : Json → String
  | Json.null => "null"
  | Json.bool true => "true"
  | Json.bool false => "false"
  | Json.str s => "\"" ++ s ++ "\""
  | Json.num n => toString n
  | Json.arr xs => "[" ++ Json.serializeList xs ++ "]"
  | Json.obj fs => "\x7b" ++ Json.serializeFields fs ++ "\x7d"

def Json.serializeList : List Json → String
  | [] => ""
  | [x] => Json.serialize x
  | x :: y :: rest => Json.serialize x ++ ", " ++ Json.serializeList (y :: rest)

def Json.serializeFields : List (String × Json) → String
  | [] => ""
  | [(k, v)] => "\"" ++ k ++ "\": " ++ Json.serialize v
  | (k, v) :: f :: rest =>
      "\"" ++ k ++ "\": " ++ Json.serialize v ++ ", " ++ Json.serializeFields (f :: rest)
end

/-- The Postgres `->>` operator applied to an already-extracted value: the
value as unquoted text, or SQL NULL for a JSON null. -/
def Json.asText : Json → Option String
  | Json.null => none
  | Json.bool true => some "true"
  | Json.bool false => some "false"
  | Json.str s => some s
  | Json.num n => some (toString n)
  | Json.arr xs => some (Json.serialize (Json.arr xs))
  | Json.obj fs => some (Json.serialize (Json.obj fs))

/-- The Postgres cast `::boolean` from text, on the textual forms the scraper
can produce; unrecognised text (a cast error) is modelled as NULL. -/
def pgTextToBool (s : String) : Option Bool :=
  if s = "true" || s = "t" || s = "yes" || s = "on" || s = "1" then some true
  else if s = "false" || s = "f" || s = "no" || s = "off" || s = "0" then some false
  else none

/-- Generated column `has_results`: `(data->>'hasResults')::boolean`. -/
def hasResultsCol (data : Json) : Option Bool :=
  (data.getField "hasResults").bind Json.asText |>.bind pgTextToBool

/-- Generated column `overall_status`:
`(data->'protocolSection'->'statusModule'->>'overallStatus')::text`. -/
def overallStatusCol (data : Json) : Option String :=
  ((data.getField "protocolSection").bind (fun j => j.getField "statusModule")).bind
    (fun j => j.getField "overallStatus") |>.bind Json.asText

/-- Generated column `phase`: the first element of
`data->'protocolSection'->'designModule'->'phases'` cast with `::text` when
that array is non-empty, SQL NULL otherwise. -/
def phaseCol (data : Json) : Option String :=
  match ((data.getField "protocolSection").bind (fun j => j.getField "designModule")).bind
      (fun j => j.getField "phases") with
  | some (Json.arr (x :: _)) => some (Json.serialize x)
  | _ => none

/-- Whether `n` occurs at the very front of `hay`. -/
def leadsWith : List Char → List Char → Bool
  | [], _ => true
  | _ :: _, [] => false
  | a :: as, b :: bs => a = b && leadsWith as bs

/-- Whether `n` occurs contiguously anywhere in `hay`. -/
def hasSub (n : List Char) : List Char → Bool
  | [] => n.isEmpty
  | c :: cs => leadsWith n (c :: cs) || hasSub n cs

/-- SQL `position(needle in hay) > 0`: the empty needle is found in every
string (SQL position returns 1 for it). -/
def sqlContains (hay needle : String) : Bool :=
  hasSub needle.data hay.data

/-- The `search_terms` CASE expression of `insert_trial`'s ON CONFLICT
branch: keep the new value if the stored one is NULL, keep the stored value
unchanged if the new one already occurs in it as a substring
(`position(EXCLUDED.search_terms in clinical_trials.search_terms) > 0`), and
otherwise append the new value after a `; ` delimiter. -/
def mergeSearchTerms (old : Option String) (new : String) : Option String :=
  match old with
  | none => some new
  | some s => if sqlContains s new then some s else some (s ++ "; " ++ new)

/-- One row of the `clinical_trials` table. The generated columns are not
stored: they are recomputed from `data` (`hasResultsCol`, `overallStatusCol`,
`phaseCol`), exactly as Postgres STORED generated columns always reflect the
current row. -/
structure Trial where
  id : Nat
  data : Json
  search_terms : Option String
  created_at : Nat
  last_updated_at : Nat
deriving Repr

/-- The `clinical_trials` table: rows keyed by the unique `nct_id`, plus the
SERIAL sequence for `id`. -/
structure DB where
  trials : List (String × Trial)
  nextId : Nat
deriving Repr

/-- The empty database right after `create_tables`. -/
def DB.empty : DB := { trials := [], nextId := 1 }

/-- Row lookup by `nct_id` (the UNIQUE key). -/
def DB.lookupRow : List (String × Trial) → String → Option Trial
  | [], _ => none
  | (k, t) :: rest, nid => if k = nid then some t else DB.lookupRow rest nid

/-- Retrieve the row for an `nct_id`. -/
def DB.find (db : DB) (nid : String) : Option Trial :=
  DB.lookupRow db.trials nid

/-- Replace the row stored under a key. -/
def DB.setRow : List (String × Trial) → String → Trial → List (String × Trial)
  | [], _, _ => []
  | (k, t) :: rest, nid, t' =>
    if k = nid then (k, t') :: rest else (k, t) :: DB.setRow rest nid t'

/-- `ClinicalTrialsDB.insert_trial`: INSERT .. ON CONFLICT (nct_id) DO UPDATE.
A fresh `nct_id` gets a new row (`created_at` and `last_updated_at` both
`NOW()`, modelled by `now`); an existing one has its `data` replaced, its
`search_terms` merged through `mergeSearchTerms`, and `last_updated_at` set to
`NOW()`. Returns the new database and the row's `id` (RETURNING id). -/
def insert_trial (db : DB) (now : Nat) (nct_id : String) (data : Json)
    (search_terms : String) : DB × Nat :=
  match db.find nct_id with
  | some t =>
    let t' : Trial :=
      { t with
        data := data
        search_terms := mergeSearchTerms t.search_terms search_terms
        last_updated_at := now }
    ({ db with trials := DB.setRow db.trials nct_id t' }, t.id)
  | none =>
    let t : Trial :=
      { id := db.nextId, data := data, search_terms := some search_terms
        created_at := now, last_updated_at := now }
    ({ trials := db.trials ++ [(nct_id, t)], nextId := db.nextId + 1 }, db.nextId)

/-- Python truthiness of an optional string argument (`if condition:` is
false for both `None` and the empty string). -/
def strTruthy : Option String → Bool
  | none => false
  | some s => !s.isEmpty

/-- Wrapping a term in double quotes: the f-string `f'"{condition}"'`. -/
def quoted (s : String) : String := "\"" ++ s ++ "\""

/-- The query parameters of one `search_studies` request. `format` and
`pageSize` are always present with fixed values; the remaining entries are
present only when set. -/
structure Params where
  format : String
  pageSize : Nat
  queryCond : Option String
  queryIntr : Option String
  queryTerm : Option String
  pageToken : Option String
deriving Repr, DecidableEq

/-- The parameter construction of `search_studies` (src/scraper.py lines
95-112): each truthy filter is added as a quoted phrase; `results_only`
rewrites `query.term` to the existing term AND-joined with
`AREA[HasResults] true`, or to that clause alone when no term was set; a
truthy page token is passed through. -/
def buildParams (condition intervention other_terms page_token : Option String)
    (results_only : Bool) : Params :=
  let qc : Option String := match condition with
    | some c => if c.isEmpty then none else some (quoted c)
    | none => none
  let qi : Option String := match intervention with
    | some i => if i.isEmpty then none else some (quoted i)
    | none => none
  let qt : Option String := match other_terms with
    | some t => if t.isEmpty then none else some (quoted t)
    | none => none
  let qt' : Option String :=
    if results_only then
      some (match qt with
        | some t => t ++ " AND AREA[HasResults] true"
        | none => "AREA[HasResults] true")
    else qt
  let pt : Option String := match page_token with
    | some t => if t.isEmpty then none else some t
    | none => none
  { format := "json", pageSize := 100
    queryCond := qc, queryIntr := qi, queryTerm := qt', pageToken := pt }

/-- The failure of one `search_studies` attempt: a non-success HTTP status
raised by `raise_for_status`, or a timeout / transport failure. Both reach
tenacity as exceptions (the `except RequestException` handler re-raises). -/
inductive SearchErr where
  | httpError : Nat → SearchErr
  | transient : SearchErr
deriving Repr, DecidableEq

/-- The sleep computed by `wait_exponential(multiplier=1, min=4, max=10)`
after the `n`-th failed attempt: `1 * 2 ^ (n - 1)` clamped into `[4, 10]`. -/
def backoffWait (n : Nat) : Nat := max 4 (min (2 ^ (n - 1)) 10)

/-- Observable trace of one decorated `search_studies` call: the final
outcome (tenacity surfaces the last attempt's failure), how many attempts
ran, and the sleeps performed between attempts, in order. -/
structure RetryTrace (ρ : Type) where
  result : Except SearchErr ρ
  attempts : Nat
  delays : List Nat
deriving Repr

/-- The tenacity retry loop: run attempt `n`; on success return, on failure
stop once `stop_after_attempt(maxAttempts)` holds, otherwise sleep
`backoffWait n` and try again. Fuel (the first numeric argument) bounds the
recursion; callers pass fuel at least `maxAttempts`, making the
fuel-exhaustion case unreachable. -/
def retryLoop {ρ : Type} (f : Nat → Except SearchErr ρ) (maxAttempts : Nat) :
    Nat → Nat → List Nat → RetryTrace ρ
  | 0, n, ds =>
    match f n with
    | Except.ok page => ⟨Except.ok page, n, ds⟩
    | Except.error e => ⟨Except.error e, n, ds⟩
  | fuel + 1, n, ds =>
    match f n with
    | Except.ok page => ⟨Except.ok page, n, ds⟩
    | Except.error e =>
      if maxAttempts ≤ n then ⟨Except.error e, n, ds⟩
      else retryLoop f maxAttempts fuel (n + 1) (ds ++ [backoffWait n])

/-- One call of the decorated `search_studies`, given the outcome each
attempt would have: `retry(stop=stop_after_attempt(3), wait=...)`. -/
def runSearchRetries {ρ : Type} (f : Nat → Except SearchErr ρ) : RetryTrace ρ :=
  retryLoop f 3 3 1 []

/-- A parsed search response: the `studies` collection when the key is
present (absent also covers a falsy response body), and the optional
`nextPageToken`. Tokens are opaque to the loop, hence the type parameter. -/
structure ApiResponse (τ : Type) where
  studies : Option (List Json)
  nextPageToken : Option τ

/-- Outcome of one page fetch as the loop sees it: a response, or an
exception escaping `search_studies` after its internal retries. -/
inductive FetchResult (τ : Type) where
  | ok : ApiResponse τ → FetchResult τ
  | err : FetchResult τ

/-- Identifier extraction of the loop body:
`study.get('protocolSection', {}).get('identificationModule', {}).get('nctId')`,
with `if not nct_id: continue`. Identifiers are strings in the API; a missing
path or an empty (falsy) string yields `none`, meaning the study is
skipped. -/
def studyNctId (study : Json) : Option String :=
  match ((study.getField "protocolSection").bind
      (fun j => j.getField "identificationModule")).bind
      (fun j => j.getField "nctId") with
  | some (Json.str s) => if s.isEmpty then none else some s
  | _ => none

/-- The bound test `if max_trials and total_stored >= max_trials`: Python
truthiness makes both `None` and `0` skip the check entirely. -/
def maxGuard (max_trials : Option Nat) (total : Nat) : Bool :=
  match max_trials with
  | none => false
  | some m => decide (m ≠ 0) && decide (m ≤ total)

/-- State after processing the studies of one page: the database, the write
clock, the running stored count, and whether the bound fired (the code then
returns from `scrape_trials` immediately). -/
structure PageOutcome where
  db : DB
  clock : Nat
  total : Nat
  reachedMax : Bool
deriving Repr

/-- The `for study in studies` body of `scrape_trials`: skip a study with no
(truthy) identifier, otherwise upsert it, count it, and stop the whole run
as soon as the bound is reached. The clock advances by one per write, so
every write carries a strictly later `NOW()` than the one before. -/
def processStudies (sts : String) (max_trials : Option Nat) :
    List Json → DB → Nat → Nat → PageOutcome
  | [], db, clock, total => ⟨db, clock, total, false⟩
  | study :: rest, db, clock, total =>
    match studyNctId study with
    | none => processStudies sts max_trials rest db clock total
    | some nid =>
      let db' := (insert_trial db clock nid study sts).1
      let total' := total + 1
      if maxGuard max_trials total' then ⟨db', clock + 1, total', true⟩
      else processStudies sts max_trials rest db' (clock + 1) total'

/-- Result of a run of the page loop: the value `scrape_trials` returns, the
final database, and the page tokens requested, in order (`none` is the
token-less first request). -/
structure ScrapeResult (τ : Type) where
  totalStored : Nat
  db : DB
  requests : List (Option τ)

/-- The `while True` page loop of `scrape_trials`, generic over the fetch
oracle. Every iteration first logs the request it is about to issue. A fetch
exception, a response without a `studies` key, an empty `studies` list, the
bound firing mid-page, and a missing `nextPageToken` are the five exits, each
returning the count stored so far. `none` is returned only when the fuel runs
out before the loop exits on its own. -/
def scrapeLoop {τ : Type} (fetch : Option τ → FetchResult τ) (max_trials : Option Nat)
    (sts : String) : Nat → DB → Nat → Nat → Option τ → List (Option τ) →
    Option (ScrapeResult τ)
  | 0, _, _, _, _, _ => none
  | fuel + 1, db, clock, total, tok, log =>
    let log' := log ++ [tok]
    match fetch tok with
    | FetchResult.err => some ⟨total, db, log'⟩
    | FetchResult.ok resp =>
      match resp.studies with
      | none => some ⟨total, db, log'⟩
      | some [] => some ⟨total, db, log'⟩
      | some (s :: ss) =>
        let out := processStudies sts max_trials (s :: ss) db clock total
        if out.reachedMax then some ⟨out.total, out.db, log'⟩
        else
          match resp.nextPageToken with
          | none => some ⟨out.total, out.db, log'⟩
          | some t =>
            scrapeLoop fetch max_trials sts fuel out.db out.clock out.total (some t) log'

/-- The annotation pieces built at the top of `scrape_trials` (lines
147-156), one per truthy argument, in the code's order. -/
def searchTermsList (condition intervention other_terms : Option String)
    (results_only : Bool) : List String :=
  (match condition with
    | some c => if c.isEmpty then [] else ["condition:" ++ c]
    | none => []) ++
  (match intervention with
    | some i => if i.isEmpty then [] else ["intervention:" ++ i]
    | none => []) ++
  (match other_terms with
    | some t => if t.isEmpty then [] else ["other_terms:" ++ t]
    | none => []) ++
  (if results_only then ["has_results:true"] else [])

/-- The canonical annotation of a run: `"; ".join(search_terms)`. -/
def searchTermsStr (condition intervention other_terms : Option String)
    (results_only : Bool) : String :=
  String.intercalate "; " (searchTermsList condition intervention other_terms results_only)

/-- `scrape_trials` itself: the validation check
`if not any([condition, intervention, other_terms])` raises before the client
or the database is constructed; otherwise the page loop runs from an empty
token, an empty request log, and a fresh clock. -/
def scrape_trials {τ : Type} (fetch : Option τ → FetchResult τ)
    (condition intervention other_terms : Option String) (max_trials : Option Nat)
    (results_only : Bool) (fuel : Nat) : Except String (Option (ScrapeResult τ)) :=
  if !(strTruthy condition || strTruthy intervention || strTruthy other_terms) then
    Except.error "At least one of condition, intervention, or other_terms must be specified"
  else
    Except.ok (scrapeLoop fetch max_trials
      (searchTermsStr condition intervention other_terms results_only)
      fuel DB.empty 0 0 none [])

/-- A fetch oracle serving a fixed chain of pages linked by next-page tokens:
the token for a later page is the list of pages still to serve. The first
(token-less) request serves the head of `pages`; a page's token is present
exactly when further pages exist; with no pages at all the oracle serves an
empty `studies` list (the registry's end-of-results shape). -/
def fetchChain (pages : List (List Json)) :
    Option (List (List Json)) → FetchResult (List (List Json)) :=
  fun tok =>
    match tok.getD pages with
    | [] => FetchResult.ok ⟨some [], none⟩
    | p :: rest => FetchResult.ok ⟨some p, if rest.isEmpty then none else some rest⟩

/-- Number of studies on a page that carry a truthy identifier (the ones the
loop stores rather than skips). -/
def countValid (page : List Json) : Nat := (page.filterMap studyNctId).length

/-- Total storable studies across a chain of pages. -/
def totalValid (pages : List (List Json)) : Nat := (pages.map countValid).sum

/-- How many pages of the chain must be fetched before `k ≥ 1` valid studies
have been stored. -/
def pagesToReach (k : Nat) : List (List Json) → Nat
  | [] => 0
  | p :: rest => if k ≤ countValid p then 1 else 1 + pagesToReach (k - countValid p) rest

/-- A run of the page loop against a fixed chain of pages, from the initial
state of `scrape_trials`. -/
def scrapeRun (pages : List (List Json)) (max_trials : Option Nat) (sts : String)
    (fuel : Nat) : Option (ScrapeResult (List (List Json))) :=
  scrapeLoop (fetchChain pages) max_trials sts fuel DB.empty 0 0 none []

/-- A minimal study document carrying just an identifier, for concrete
instances. -/
def mkStudy (nid : String) : Json :=
  Json.obj [("protocolSection",
    Json.obj [("identificationModule", Json.obj [("nctId", Json.str nid)])])]

/-- The `nct_id` keys currently stored, in row order. -/
def DB.nctIds (db : DB) : List String := db.trials.map (fun r => r.1)

theorem leadsWith_refl (l : List Char) : leadsWith l l = true := by
  induction l with
  | nil => rfl
  | cons a as ih => simp [leadsWith, ih]

theorem hasSub_self (l : List Char) : hasSub l l = true := by
  cases l with
  | nil => rfl
  | cons c cs => simp [hasSub, leadsWith_refl]

theorem hasSub_append_right (n m : List Char) : hasSub n (m ++ n) = true := by
  induction m with
  | nil => simpa using hasSub_self n
  | cons c cs ih => simp [hasSub, ih]

theorem sqlContains_append (s t : String) : sqlContains (s ++ t) t = true := by
  unfold sqlContains
  rw [String.data_append]
  exact hasSub_append_right t.data s.data

theorem sqlContains_refl (s : String) : sqlContains s s = true :=
  hasSub_self s.data

/-- Merging the same annotation a second time never changes the accumulated
value: after one merge the annotation occurs as a substring, so the SQL CASE
keeps the stored value. -/
theorem mergeSearchTerms_absorb (old : Option String) (ann : String) :
    mergeSearchTerms (mergeSearchTerms old ann) ann = mergeSearchTerms old ann := by
  cases old with
  | none => simp [mergeSearchTerms, sqlContains_refl]
  | some s =>
    cases hc : sqlContains s ann with
    | true => simp [mergeSearchTerms, hc]
    | false => simp [mergeSearchTerms, hc, sqlContains_append (s ++ "; ") ann]

theorem lookupRow_setRow_self (l : List (String × Trial)) (nid : String) (t t' : Trial)
    (h : DB.lookupRow l nid = some t) :
    DB.lookupRow (DB.setRow l nid t') nid = some t' := by
  induction l with
  | nil => simp [DB.lookupRow] at h
  | cons p rest ih =>
    obtain ⟨k, tr⟩ := p
    by_cases hk : k = nid
    · simp [DB.setRow, DB.lookupRow, hk]
    · simp only [DB.lookupRow, if_neg hk] at h
      simp [DB.setRow, DB.lookupRow, hk, ih h]

theorem lookupRow_append_self (l : List (String × Trial)) (nid : String) (t : Trial)
    (h : DB.lookupRow l nid = none) :
    DB.lookupRow (l ++ [(nid, t)]) nid = some t := by
  induction l with
  | nil => simp [DB.lookupRow]
  | cons p rest ih =>
    obtain ⟨k, tr⟩ := p
    by_cases hk : k = nid
    · simp [DB.lookupRow, hk] at h
    · simp only [DB.lookupRow, if_neg hk] at h
      simp [DB.lookupRow, hk, ih h]

/-- Upsert on an existing `nct_id`: the row afterwards has the new payload,
the merged annotations, and the new write time, with `id` and `created_at`
untouched. -/
theorem find_insert_existing (db : DB) (now : Nat) (nid : String) (data : Json)
    (sts : String) (t : Trial) (h : db.find nid = some t) :
    ((insert_trial db now nid data sts).1).find nid =
      some { t with
             data := data
             search_terms := mergeSearchTerms t.search_terms sts
             last_updated_at := now } := by
  have h' : DB.lookupRow db.trials nid = some t := h
  simp only [insert_trial, DB.find, h']
  exact lookupRow_setRow_self db.trials nid t _ h'

/-- Upsert on a fresh `nct_id`: a new row with both timestamps set to the
write time and `search_terms` set to the annotation. -/
theorem find_insert_fresh (db : DB) (now : Nat) (nid : String) (data : Json)
    (sts : String) (h : db.find nid = none) :
    ((insert_trial db now nid data sts).1).find nid =
      some { id := db.nextId
             data := data
             search_terms := some sts
             created_at := now
             last_updated_at := now } := by
  have h' : DB.lookupRow db.trials nid = none := h
  simp only [insert_trial, DB.find, h']
  exact lookupRow_append_self db.trials nid _ h'

/-- C1: Merge law of upsert. For every record already stored with an
accumulated annotation value `s`, one `insert_trial` call with annotation
`ann` leaves a row whose `search_terms` is `s ++ "; " ++ ann` (the annotation
appended exactly once, after the `; ` delimiter) when `ann` does not yet
occur as a substring of `s`, and is `s` unchanged (no duplicate) when `ann`
already occurs as a substring of `s`. -/
theorem upsert_merge_law (db : DB) (now : Nat) (nid : String) (data : Json)
    (ann s : String) (t : Trial) (ht : db.find nid = some t)
    (hs : t.search_terms = some s) :
    ∃ t', ((insert_trial db now nid data ann).1).find nid = some t' ∧
      (sqlContains s ann = false → t'.search_terms = some (s ++ "; " ++ ann)) ∧
      (sqlContains s ann = true → t'.search_terms = some s) := by
  refine ⟨_, find_insert_existing db now nid data ann t ht, ?_, ?_⟩ <;>
    intro hc <;> simp [hs, mergeSearchTerms, hc]

/-- A one-row database used to instantiate the merge law. -/
def dbC1 : DB := (insert_trial DB.empty 0 "NCT01" (mkStudy "NCT01") "condition:heart").1

/-- The row stored in `dbC1`. -/
def trialC1 : Trial :=
  { id := 1, data := mkStudy "NCT01", search_terms := some "condition:heart"
    created_at := 0, last_updated_at := 0 }

theorem upsert_merge_law_witness :
    ∃ t', ((insert_trial dbC1 1 "NCT01" (mkStudy "NCT01") "condition:brain").1).find "NCT01" =
        some t' ∧
      (sqlContains "condition:heart" "condition:brain" = false →
        t'.search_terms = some ("condition:heart" ++ "; " ++ "condition:brain")) ∧
      (sqlContains "condition:heart" "condition:brain" = true →
        t'.search_terms = some "condition:heart") :=
  upsert_merge_law dbC1 1 "NCT01" (mkStudy "NCT01") "condition:brain" "condition:heart"
    trialC1 rfl rfl

/-- C2: Idempotence of upsert. Upserting the same `nct_id`, payload and
annotation twice, at write times `t1 < t2`, leaves the derived columns
`has_results`, `overall_status` and `phase` and the accumulated
`search_terms` exactly as after the first call, while `last_updated_at`
strictly advances on the second call. -/
theorem upsert_idempotent (db : DB) (t1 t2 : Nat) (h12 : t1 < t2) (nid : String)
    (data : Json) (ann : String) :
    ∃ r1 r2,
      ((insert_trial db t1 nid data ann).1).find nid = some r1 ∧
      ((insert_trial (insert_trial db t1 nid data ann).1 t2 nid data ann).1).find nid =
        some r2 ∧
      hasResultsCol r2.data = hasResultsCol r1.data ∧
      overallStatusCol r2.data = overallStatusCol r1.data ∧
      phaseCol r2.data = phaseCol r1.data ∧
      r2.search_terms = r1.search_terms ∧
      r1.last_updated_at < r2.last_updated_at := by
  cases h : db.find nid with
  | none =>
    have h1 := find_insert_fresh db t1 nid data ann h
    have h2 := find_insert_existing (insert_trial db t1 nid data ann).1 t2 nid data ann _ h1
    refine ⟨_, _, h1, h2, rfl, rfl, rfl, ?_, h12⟩
    simp [mergeSearchTerms, sqlContains_refl]
  | some t =>
    have h1 := find_insert_existing db t1 nid data ann t h
    have h2 := find_insert_existing (insert_trial db t1 nid data ann).1 t2 nid data ann _ h1
    refine ⟨_, _, h1, h2, rfl, rfl, rfl, ?_, h12⟩
    exact mergeSearchTerms_absorb t.search_terms ann

theorem upsert_idempotent_witness :
    ∃ r1 r2,
      ((insert_trial DB.empty 0 "NCT02" (mkStudy "NCT02") "condition:heart").1).find
        "NCT02" = some r1 ∧
      ((insert_trial (insert_trial DB.empty 0 "NCT02" (mkStudy "NCT02")
          "condition:heart").1 1 "NCT02" (mkStudy "NCT02") "condition:heart").1).find
        "NCT02" = some r2 ∧
      hasResultsCol r2.data = hasResultsCol r1.data ∧
      overallStatusCol r2.data = overallStatusCol r1.data ∧
      phaseCol r2.data = phaseCol r1.data ∧
      r2.search_terms = r1.search_terms ∧
      r1.last_updated_at < r2.last_updated_at :=
  upsert_idempotent DB.empty 0 1 (by decide) "NCT02" (mkStudy "NCT02") "condition:heart"

theorem countValid_cons_none (s : Json) (l : List Json) (h : studyNctId s = none) :
    countValid (s :: l) = countValid l := by
  simp [countValid, List.filterMap_cons, h]

theorem countValid_cons_some (s : Json) (nid : String) (l : List Json)
    (h : studyNctId s = some nid) : countValid (s :: l) = countValid l + 1 := by
  simp [countValid, List.filterMap_cons, h]

theorem totalValid_cons (p : List Json) (pages : List (List Json)) :
    totalValid (p :: pages) = countValid p + totalValid pages := by
  simp [totalValid]

theorem maxGuard_none (n : Nat) : maxGuard none n = false := rfl

theorem maxGuard_zero (n : Nat) : maxGuard (some 0) n = false := by
  simp [maxGuard]

/-- Processing a page whose valid studies do not reach the bound stores all
of them and does not trigger the bound. -/
theorem processStudies_total_lt (sts : String) (k : Nat) :
    ∀ (l : List Json) (db : DB) (clock total : Nat), total + countValid l < k →
      (processStudies sts (some k) l db clock total).total = total + countValid l ∧
      (processStudies sts (some k) l db clock total).reachedMax = false := by
  intro l
  induction l with
  | nil => intro db clock total h; simp [processStudies, countValid]
  | cons s rest ih =>
    intro db clock total h
    cases hid : studyNctId s with
    | none =>
      rw [countValid_cons_none s rest hid] at h ⊢
      simpa only [processStudies, hid] using ih db clock total h
    | some nid =>
      rw [countValid_cons_some s nid rest hid] at h ⊢
      have hguard : maxGuard (some k) (total + 1) = false := by
        simp only [maxGuard, Bool.and_eq_false_iff, decide_eq_false_iff_not]
        right; omega
      have := ih (insert_trial db clock nid s sts).1 (clock + 1) (total + 1) (by omega)
      simp only [processStudies, hid, hguard, Bool.false_eq_true, if_false]
      exact ⟨by rw [this.1]; omega, this.2⟩

/-- Processing a page with enough valid studies to reach the bound stops at
exactly the bound and reports it. -/
theorem processStudies_reaches (sts : String) (k : Nat) (hk1 : 1 ≤ k) :
    ∀ (l : List Json) (db : DB) (clock total : Nat), total < k →
      k ≤ total + countValid l →
      (processStudies sts (some k) l db clock total).total = k ∧
      (processStudies sts (some k) l db clock total).reachedMax = true := by
  intro l
  induction l with
  | nil =>
    intro db clock total h1 h2
    simp [countValid] at h2
    omega
  | cons s rest ih =>
    intro db clock total h1 h2
    cases hid : studyNctId s with
    | none =>
      rw [countValid_cons_none s rest hid] at h2
      simpa only [processStudies, hid] using ih db clock total h1 h2
    | some nid =>
      rw [countValid_cons_some s nid rest hid] at h2
      by_cases hk2 : k ≤ total + 1
      · have hguard : maxGuard (some k) (total + 1) = true := by
          simp only [maxGuard, Bool.and_eq_true, decide_eq_true_eq]
          exact ⟨by omega, hk2⟩
        simp only [processStudies, hid, hguard, if_true]
        exact ⟨by omega, trivial⟩
      · have hguard : maxGuard (some k) (total + 1) = false := by
          simp only [maxGuard, Bool.and_eq_false_iff, decide_eq_false_iff_not]
          right; omega
        have := ih (insert_trial db clock nid s sts).1 (clock + 1) (total + 1)
          (by omega) (by omega)
        simpa only [processStudies, hid, hguard, Bool.false_eq_true, if_false] using this

/-- With a bound that never fires (`None`, or `0` by Python truthiness),
processing a page stores every valid study on it. -/
theorem processStudies_no_guard (sts : String) (mt : Option Nat)
    (hg : ∀ n, maxGuard mt n = false) :
    ∀ (l : List Json) (db : DB) (clock total : Nat),
      (processStudies sts mt l db clock total).total = total + countValid l ∧
      (processStudies sts mt l db clock total).reachedMax = false := by
  intro l
  induction l with
  | nil => intro db clock total; simp [processStudies, countValid]
  | cons s rest ih =>
    intro db clock total
    cases hid : studyNctId s with
    | none =>
      rw [countValid_cons_none s rest hid]
      simpa only [processStudies, hid] using ih db clock total
    | some nid =>
      rw [countValid_cons_some s nid rest hid]
      have := ih (insert_trial db clock nid s sts).1 (clock + 1) (total + 1)
      simp only [processStudies, hid, hg (total + 1), Bool.false_eq_true, if_false]
      exact ⟨by rw [this.1]; omega, this.2⟩

/-- One loop iteration whose fetch raises: the loop breaks and returns the
count stored so far. -/
theorem scrapeLoop_err {τ : Type} (fetch : Option τ → FetchResult τ) (mt : Option Nat)
    (sts : String) (fuel : Nat) (db : DB) (clock total : Nat) (tok : Option τ)
    (log : List (Option τ)) (hf : fetch tok = FetchResult.err) :
    scrapeLoop fetch mt sts (fuel + 1) db clock total tok log =
      some ⟨total, db, log ++ [tok]⟩ := by
  simp [scrapeLoop, hf]

/-- One loop iteration whose fetch succeeds, written as the page-level case
split the loop body performs. -/
theorem scrapeLoop_ok {τ : Type} (fetch : Option τ → FetchResult τ) (mt : Option Nat)
    (sts : String) (fuel : Nat) (db : DB) (clock total : Nat) (tok : Option τ)
    (log : List (Option τ)) (resp : ApiResponse τ)
    (hf : fetch tok = FetchResult.ok resp) :
    scrapeLoop fetch mt sts (fuel + 1) db clock total tok log =
      match resp.studies with
      | none => some ⟨total, db, log ++ [tok]⟩
      | some [] => some ⟨total, db, log ++ [tok]⟩
      | some (s :: ss) =>
        if (processStudies sts mt (s :: ss) db clock total).reachedMax then
          some ⟨(processStudies sts mt (s :: ss) db clock total).total,
                (processStudies sts mt (s :: ss) db clock total).db, log ++ [tok]⟩
        else
          match resp.nextPageToken with
          | none =>
            some ⟨(processStudies sts mt (s :: ss) db clock total).total,
                  (processStudies sts mt (s :: ss) db clock total).db, log ++ [tok]⟩
          | some t =>
            scrapeLoop fetch mt sts fuel
              (processStudies sts mt (s :: ss) db clock total).db
              (processStudies sts mt (s :: ss) db clock total).clock
              (processStudies sts mt (s :: ss) db clock total).total
              (some t) (log ++ [tok]) := by
  simp only [scrapeLoop, hf]

theorem fetchChain_at (pages rem : List (List Json)) (tok : Option (List (List Json)))
    (htok : tok = some rem ∨ tok = none ∧ rem = pages) :
    fetchChain pages tok = fetchChain pages (some rem) := by
  rcases htok with h | ⟨h1, h2⟩ <;> subst_vars <;> rfl

theorem fetchChain_some_cons (pages : List (List Json)) (p : List Json)
    (rest : List (List Json)) :
    fetchChain pages (some (p :: rest)) =
      FetchResult.ok ⟨some p, if rest.isEmpty then none else some rest⟩ := rfl

theorem fetchChain_some_nil (pages : List (List Json)) :
    fetchChain pages (some []) = FetchResult.ok ⟨some [], none⟩ := rfl

theorem pagesToReach_cons (k : Nat) (p : List Json) (rest : List (List Json)) :
    pagesToReach k (p :: rest) =
      if k ≤ countValid p then 1 else 1 + pagesToReach (k - countValid p) rest := rfl

theorem pagesToReach_pos (k : Nat) (p : List Json) (rest : List (List Json)) :
    1 ≤ pagesToReach k (p :: rest) := by
  unfold pagesToReach
  split <;> omega

theorem pagesToReach_le_length :
    ∀ (pages : List (List Json)) (k : Nat), k ≤ totalValid pages →
      pagesToReach k pages ≤ pages.length := by
  intro pages
  induction pages with
  | nil => intro k h; simp [pagesToReach]
  | cons p rest ih =>
    intro k h
    rw [totalValid_cons] at h
    unfold pagesToReach
    split
    · simp
    · have := ih (k - countValid p) (by omega)
      simp only [List.length_cons]
      omega

/-- Core induction for bound enforcement: started anywhere in a chain of
non-empty pages holding at least `k - total` more valid studies, the loop
with bound `k` returns exactly `k` and issues exactly as many further
requests as pages are needed to reach the bound. -/
theorem scrapeLoop_bound (pages : List (List Json)) (sts : String) (k : Nat)
    (hk1 : 1 ≤ k) :
    ∀ (rem : List (List Json)) (tok : Option (List (List Json))) (fuel : Nat) (db : DB)
      (clock total : Nat) (log : List (Option (List (List Json)))),
      (tok = some rem ∨ tok = none ∧ rem = pages) →
      total < k → k ≤ total + totalValid rem → (∀ p ∈ rem, p ≠ []) →
      pagesToReach (k - total) rem ≤ fuel →
      ∃ r, scrapeLoop (fetchChain pages) (some k) sts fuel db clock total tok log =
          some r ∧
        r.totalStored = k ∧
        r.requests.length = log.length + pagesToReach (k - total) rem := by
  intro rem
  induction rem with
  | nil =>
    intro tok fuel db clock total log htok h1 h2 hne hfuel
    exfalso
    simp [totalValid] at h2
    omega
  | cons p rest ih =>
    intro tok fuel db clock total log htok h1 h2 hne hfuel
    have hp1 : 1 ≤ pagesToReach (k - total) (p :: rest) := pagesToReach_pos _ _ _
    cases fuel with
    | zero => omega
    | succ f =>
      have hfet : fetchChain pages tok =
          FetchResult.ok ⟨some p, if rest.isEmpty then none else some rest⟩ := by
        rw [fetchChain_at pages (p :: rest) tok htok, fetchChain_some_cons]
      rw [scrapeLoop_ok _ _ _ _ _ _ _ _ _ _ hfet]
      obtain ⟨s, ss, hps⟩ : ∃ s ss, p = s :: ss := by
        cases hq : p with
        | nil => exact absurd hq (hne p (by simp))
        | cons a b => exact ⟨a, b, rfl⟩
      subst hps
      rw [totalValid_cons] at h2
      by_cases hreach : k ≤ total + countValid (s :: ss)
      · have hp := processStudies_reaches sts k hk1 (s :: ss) db clock total h1 hreach
        simp only [hp.2, if_true]
        refine ⟨_, rfl, hp.1, ?_⟩
        have hone : pagesToReach (k - total) ((s :: ss) :: rest) = 1 := by
          rw [pagesToReach_cons, if_pos (by omega)]
        rw [hone]
        simp
      · push_neg at hreach
        have hp := processStudies_total_lt sts k (s :: ss) db clock total hreach
        simp only [hp.2, Bool.false_eq_true, if_false]
        have hrest : rest ≠ [] := by
          intro h0
          subst h0
          simp [totalValid] at h2
          omega
      /- the next-page token is present, so the loop recurses into `rest` -/
        obtain ⟨q, qs, hq⟩ : ∃ q qs, rest = q :: qs := by
          cases hq : rest with
          | nil => exact absurd hq hrest
          | cons a b => exact ⟨a, b, rfl⟩
        have hemp : rest.isEmpty = false := by rw [hq]; rfl
        rw [hemp]
        simp only [Bool.false_eq_true, if_false]
        rw [hp.1]
        have hfuel2 : pagesToReach (k - (total + countValid (s :: ss))) rest ≤ f := by
          have heq : pagesToReach (k - total) ((s :: ss) :: rest) =
              1 + pagesToReach (k - total - countValid (s :: ss)) rest := by
            rw [pagesToReach_cons, if_neg (by omega)]
          rw [heq, Nat.sub_sub] at hfuel
          omega
        obtain ⟨r, hr, hrt, hrl⟩ := ih (some rest) f
          (processStudies sts (some k) (s :: ss) db clock total).db
          (processStudies sts (some k) (s :: ss) db clock total).clock
          (total + countValid (s :: ss)) (log ++ [tok]) (Or.inl rfl)
          (by omega) (by omega)
          (fun x hx => hne x (by simp [hq] at hx ⊢; tauto)) hfuel2
        refine ⟨r, hr, hrt, ?_⟩
        rw [hrl]
        have heq : pagesToReach (k - total) ((s :: ss) :: rest) =
            1 + pagesToReach (k - (total + countValid (s :: ss))) rest := by
          rw [pagesToReach_cons, if_neg (by omega), Nat.sub_sub]
        rw [heq]
        simp
        omega

/-- Core induction for pagination completeness: with a bound that never
fires, the loop walks every page of a chain of non-empty pages and stores
every valid study. -/
theorem scrapeLoop_unbounded (pages : List (List Json)) (sts : String)
    (mt : Option Nat) (hg : ∀ n, maxGuard mt n = false) :
    ∀ (rem : List (List Json)) (tok : Option (List (List Json))) (fuel : Nat) (db : DB)
      (clock total : Nat) (log : List (Option (List (List Json)))),
      (tok = some rem ∨ tok = none ∧ rem = pages) →
      (∀ p ∈ rem, p ≠ []) → rem.length + 1 ≤ fuel →
      ∃ r, scrapeLoop (fetchChain pages) mt sts fuel db clock total tok log = some r ∧
        r.totalStored = total + totalValid rem := by
  intro rem
  induction rem with
  | nil =>
    intro tok fuel db clock total log htok hne hfuel
    cases fuel with
    | zero => omega
    | succ f =>
      have hfet : fetchChain pages tok = FetchResult.ok ⟨some [], none⟩ := by
        rw [fetchChain_at pages [] tok htok, fetchChain_some_nil]
      rw [scrapeLoop_ok _ _ _ _ _ _ _ _ _ _ hfet]
      exact ⟨_, rfl, by simp [totalValid]⟩
  | cons p rest ih =>
    intro tok fuel db clock total log htok hne hfuel
    cases fuel with
    | zero => simp at hfuel
    | succ f =>
      have hfet : fetchChain pages tok =
          FetchResult.ok ⟨some p, if rest.isEmpty then none else some rest⟩ := by
        rw [fetchChain_at pages (p :: rest) tok htok, fetchChain_some_cons]
      rw [scrapeLoop_ok _ _ _ _ _ _ _ _ _ _ hfet]
      obtain ⟨s, ss, hps⟩ : ∃ s ss, p = s :: ss := by
        cases hq : p with
        | nil => exact absurd hq (hne p (by simp))
        | cons a b => exact ⟨a, b, rfl⟩
      subst hps
      have hp := processStudies_no_guard sts mt hg (s :: ss) db clock total
      simp only [hp.2, Bool.false_eq_true, if_false]
      cases hq : rest with
      | nil =>
        subst hq
        simp only [List.isEmpty_nil, if_true]
        refine ⟨_, rfl, ?_⟩
        rw [hp.1]
        simp [totalValid]
      | cons q qs =>
        have hemp : rest.isEmpty = false := by rw [hq]; rfl
        rw [← hq, hemp]
        simp only [Bool.false_eq_true, if_false]
        obtain ⟨r, hr, hrt⟩ := ih (some rest) f
          (processStudies sts mt (s :: ss) db clock total).db
          (processStudies sts mt (s :: ss) db clock total).clock
          (processStudies sts mt (s :: ss) db clock total).total
          (log ++ [tok]) (Or.inl rfl)
          (fun x hx => hne x (by simp [hq] at hx ⊢; tauto))
          (by simp at hfuel ⊢; omega)
        refine ⟨r, hr, ?_⟩
        rw [hrt, hp.1, totalValid_cons]
        omega

/-- The two-page chain of the spec's bound-enforcement example: a first page
with NCT01, NCT02, NCT03 and a further page that must never be fetched. -/
def pagesC3 : List (List Json) :=
  [[mkStudy "NCT01", mkStudy "NCT02", mkStudy "NCT03"], [mkStudy "NCT04"]]

/-- The annotation of the example run, `condition="diabetes"`. -/
def stsC3 : String := searchTermsStr (some "diabetes") none none false

/-- C3: Bound enforcement. With `max_trials = k` at least 1 and strictly
below the valid studies available across the chain (all pages non-empty),
the run stores exactly `k` records and requests exactly the pages needed to
reach the `k`-th stored record, never one beyond. In particular, for
`condition="diabetes"`, `maxRecords=2` and a first page holding NCT01, NCT02,
NCT03 in order, the run stores exactly NCT01 and NCT02, returns count 2, and
issues only the single token-less first request even though a second page
exists. -/
theorem scrape_bound_enforcement :
    (∀ (pages : List (List Json)) (sts : String) (k : Nat),
      1 ≤ k → k < totalValid pages → (∀ p ∈ pages, p ≠ []) →
      ∃ r, scrapeRun pages (some k) sts pages.length = some r ∧
        r.totalStored = k ∧ r.requests.length = pagesToReach k pages) ∧
    (scrapeRun pagesC3 (some 2) stsC3 2).map
        (fun r => (r.totalStored, r.db.nctIds, r.requests)) =
      some (2, ["NCT01", "NCT02"], [none]) := by
  constructor
  · intro pages sts k hk1 hklt hne
    obtain ⟨r, hr, hrt, hrl⟩ := scrapeLoop_bound pages sts k hk1 pages none
      pages.length DB.empty 0 0 [] (Or.inr ⟨rfl, rfl⟩) (by omega) (by omega) hne
      (by rw [Nat.sub_zero]; exact pagesToReach_le_length pages k (le_of_lt hklt))
    refine ⟨r, hr, hrt, ?_⟩
    simpa using hrl
  · rfl

theorem scrape_bound_enforcement_witness :
    (1 ≤ 2 ∧ 2 < totalValid pagesC3 ∧ (∀ p ∈ pagesC3, p ≠ [])) ∧
    ∃ r, scrapeRun pagesC3 (some 2) stsC3 pagesC3.length = some r ∧
      r.totalStored = 2 ∧ r.requests.length = pagesToReach 2 pagesC3 := by
  have hne : ∀ p ∈ pagesC3, p ≠ [] := by
    intro p hp
    simp only [pagesC3, List.mem_cons, List.not_mem_nil, or_false] at hp
    rcases hp with rfl | rfl <;> exact List.cons_ne_nil _ _
  have h2 : 2 < totalValid pagesC3 := by decide
  exact ⟨⟨by omega, h2, hne⟩, scrape_bound_enforcement.1 pagesC3 stsC3 2 (by omega) h2 hne⟩

/-- A chain in which the first page also holds a study document with no
identifier at all. -/
def pagesC4 : List (List Json) := [[mkStudy "NCT01", Json.obj []], [mkStudy "NCT02"]]

/-- C4: Pagination completeness. With no record bound, the run over a
token-linked chain of non-empty pages ending in a token-less page returns
exactly the number of studies carrying an identifier across all pages; and a
study lacking an identifier is skipped by `processStudies` without
incrementing the stored count and without aborting the batch (processing the
page continues exactly as if the study were not there). -/
theorem scrape_pagination_complete :
    (∀ (pages : List (List Json)) (sts : String), (∀ p ∈ pages, p ≠ []) →
      ∃ r, scrapeRun pages none sts (pages.length + 1) = some r ∧
        r.totalStored = totalValid pages) ∧
    (∀ (sts : String) (mt : Option Nat) (s : Json) (l : List Json) (db : DB)
        (clock total : Nat), studyNctId s = none →
      processStudies sts mt (s :: l) db clock total =
        processStudies sts mt l db clock total) := by
  constructor
  · intro pages sts hne
    obtain ⟨r, hr, hrt⟩ := scrapeLoop_unbounded pages sts none (fun _ => rfl) pages
      none (pages.length + 1) DB.empty 0 0 [] (Or.inr ⟨rfl, rfl⟩) hne (le_refl _)
    exact ⟨r, hr, by simpa using hrt⟩
  · intro sts mt s l db clock total h
    simp [processStudies, h]

theorem scrape_pagination_complete_witness :
    ((∀ p ∈ pagesC4, p ≠ []) ∧
      ∃ r, scrapeRun pagesC4 none "condition:x" (pagesC4.length + 1) = some r ∧
        r.totalStored = totalValid pagesC4) ∧
    (studyNctId (Json.obj []) = none ∧
      processStudies "condition:x" none [Json.obj []] DB.empty 0 0 =
        processStudies "condition:x" none [] DB.empty 0 0) := by
  have hne : ∀ p ∈ pagesC4, p ≠ [] := by
    intro p hp
    simp only [pagesC4, List.mem_cons, List.not_mem_nil, or_false] at hp
    rcases hp with rfl | rfl <;> exact List.cons_ne_nil _ _
  exact ⟨⟨hne, scrape_pagination_complete.1 pagesC4 "condition:x" hne⟩,
    ⟨rfl, scrape_pagination_complete.2 "condition:x" none (Json.obj []) [] DB.empty 0 0 rfl⟩⟩

/-- C9: every terminal path of the page loop returns the count stored so far
instead of raising: a fetch that fails after the client's retries (ABORTED);
a response without the `studies` collection; a response with zero studies
(both graceful end-of-data); the bound firing mid-page; and a fully processed
page without a next-page token. -/
theorem scrape_terminal_returns_count (τ : Type) (fetch : Option τ → FetchResult τ)
    (mt : Option Nat) (sts : String) (fuel : Nat) (db : DB) (clock total : Nat)
    (tok : Option τ) (log : List (Option τ)) :
    (fetch tok = FetchResult.err →
      scrapeLoop fetch mt sts (fuel + 1) db clock total tok log =
        some ⟨total, db, log ++ [tok]⟩) ∧
    (∀ ntok, fetch tok = FetchResult.ok ⟨none, ntok⟩ →
      scrapeLoop fetch mt sts (fuel + 1) db clock total tok log =
        some ⟨total, db, log ++ [tok]⟩) ∧
    (∀ ntok, fetch tok = FetchResult.ok ⟨some [], ntok⟩ →
      scrapeLoop fetch mt sts (fuel + 1) db clock total tok log =
        some ⟨total, db, log ++ [tok]⟩) ∧
    (∀ ntok s ss, fetch tok = FetchResult.ok ⟨some (s :: ss), ntok⟩ →
      (processStudies sts mt (s :: ss) db clock total).reachedMax = true →
      scrapeLoop fetch mt sts (fuel + 1) db clock total tok log =
        some ⟨(processStudies sts mt (s :: ss) db clock total).total,
              (processStudies sts mt (s :: ss) db clock total).db, log ++ [tok]⟩) ∧
    (∀ s ss, fetch tok = FetchResult.ok ⟨some (s :: ss), none⟩ →
      (processStudies sts mt (s :: ss) db clock total).reachedMax = false →
      scrapeLoop fetch mt sts (fuel + 1) db clock total tok log =
        some ⟨(processStudies sts mt (s :: ss) db clock total).total,
              (processStudies sts mt (s :: ss) db clock total).db, log ++ [tok]⟩) := by
  refine ⟨?_, ?_, ?_, ?_, ?_⟩
  · intro h
    exact scrapeLoop_err fetch mt sts fuel db clock total tok log h
  · intro ntok h
    rw [scrapeLoop_ok fetch mt sts fuel db clock total tok log _ h]
  · intro ntok h
    rw [scrapeLoop_ok fetch mt sts fuel db clock total tok log _ h]
  · intro ntok s ss h hrm
    rw [scrapeLoop_ok fetch mt sts fuel db clock total tok log _ h]
    simp [hrm]
  · intro s ss h hrm
    rw [scrapeLoop_ok fetch mt sts fuel db clock total tok log _ h]
    simp [hrm]

theorem scrape_terminal_returns_count_witness :
    (scrapeLoop (fun _ => FetchResult.err : Option Unit → FetchResult Unit) none "x" 1
        DB.empty 0 0 none [] = some ⟨0, DB.empty, [none]⟩) ∧
    (scrapeLoop (fun _ => FetchResult.ok ⟨none, none⟩ : Option Unit → FetchResult Unit)
        none "x" 1 DB.empty 0 0 none [] = some ⟨0, DB.empty, [none]⟩) ∧
    (scrapeLoop (fun _ => FetchResult.ok ⟨some [], none⟩ : Option Unit → FetchResult Unit)
        none "x" 1 DB.empty 0 0 none [] = some ⟨0, DB.empty, [none]⟩) ∧
    (scrapeLoop
        (fun _ => FetchResult.ok ⟨some [mkStudy "NCT01"], some ()⟩ :
          Option Unit → FetchResult Unit) (some 1) "x" 1 DB.empty 0 0 none [] =
      some ⟨(processStudies "x" (some 1) [mkStudy "NCT01"] DB.empty 0 0).total,
            (processStudies "x" (some 1) [mkStudy "NCT01"] DB.empty 0 0).db, [none]⟩) ∧
    (scrapeLoop
        (fun _ => FetchResult.ok ⟨some [mkStudy "NCT01"], none⟩ :
          Option Unit → FetchResult Unit) none "x" 1 DB.empty 0 0 none [] =
      some ⟨(processStudies "x" none [mkStudy "NCT01"] DB.empty 0 0).total,
            (processStudies "x" none [mkStudy "NCT01"] DB.empty 0 0).db, [none]⟩) :=
  ⟨(scrape_terminal_returns_count Unit (fun _ => FetchResult.err) none "x" 0 DB.empty
      0 0 none []).1 rfl,
   (scrape_terminal_returns_count Unit (fun _ => FetchResult.ok ⟨none, none⟩) none "x" 0
      DB.empty 0 0 none []).2.1 none rfl,
   (scrape_terminal_returns_count Unit (fun _ => FetchResult.ok ⟨some [], none⟩) none "x"
      0 DB.empty 0 0 none []).2.2.1 none rfl,
   (scrape_terminal_returns_count Unit (fun _ => FetchResult.ok ⟨some [mkStudy "NCT01"], some ()⟩)
      (some 1) "x" 0 DB.empty 0 0 none []).2.2.2.1 (some ()) (mkStudy "NCT01") [] rfl rfl,
   (scrape_terminal_returns_count Unit (fun _ => FetchResult.ok ⟨some [mkStudy "NCT01"], none⟩)
      none "x" 0 DB.empty 0 0 none []).2.2.2.2 (mkStudy "NCT01") [] rfl rfl⟩

theorem processStudies_guard_congr (sts : String) (mt mt' : Option Nat)
    (hg : ∀ n, maxGuard mt n = maxGuard mt' n) :
    ∀ (l : List Json) (db : DB) (clock total : Nat),
      processStudies sts mt l db clock total = processStudies sts mt' l db clock total := by
  intro l
  induction l with
  | nil => intro db clock total; rfl
  | cons s rest ih =>
    intro db clock total
    cases hid : studyNctId s with
    | none =>
      simp only [processStudies, hid]
      exact ih db clock total
    | some nid =>
      simp only [processStudies, hid, hg (total + 1)]
      by_cases hm : maxGuard mt' (total + 1) = true
      · simp [hm]
      · simp only [Bool.not_eq_true] at hm
        simp [hm, ih]

theorem scrapeLoop_guard_congr {τ : Type} (fetch : Option τ → FetchResult τ)
    (sts : String) (mt mt' : Option Nat) (hg : ∀ n, maxGuard mt n = maxGuard mt' n) :
    ∀ (fuel : Nat) (db : DB) (clock total : Nat) (tok : Option τ)
      (log : List (Option τ)),
      scrapeLoop fetch mt sts fuel db clock total tok log =
        scrapeLoop fetch mt' sts fuel db clock total tok log := by
  intro fuel
  induction fuel with
  | zero => intro db clock total tok log; rfl
  | succ f ih =>
    intro db clock total tok log
    cases hf : fetch tok with
    | err =>
      rw [scrapeLoop_err fetch mt sts f db clock total tok log hf,
        scrapeLoop_err fetch mt' sts f db clock total tok log hf]
    | ok resp =>
      rw [scrapeLoop_ok fetch mt sts f db clock total tok log resp hf,
        scrapeLoop_ok fetch mt' sts f db clock total tok log resp hf]
      obtain ⟨st, ntok⟩ := resp
      cases st with
      | none => rfl
      | some l =>
        cases l with
        | nil => rfl
        | cons s ss =>
          simp only []
          rw [processStudies_guard_congr sts mt mt' hg (s :: ss) db clock total]
          cases hm : (processStudies sts mt' (s :: ss) db clock total).reachedMax with
          | true => simp
          | false =>
            cases ntok with
            | none => simp
            | some t => simpa using ih _ _ _ _ _

/-- C10: a maximum-record bound of 0 is Python-falsy, so the bound check
never triggers and the whole run is indistinguishable from a run with no
bound at all: it stores all available records instead of stopping at zero. -/
theorem zero_bound_unbounded (τ : Type) (fetch : Option τ → FetchResult τ)
    (condition intervention other_terms : Option String) (results_only : Bool)
    (fuel : Nat) :
    scrape_trials fetch condition intervention other_terms (some 0) results_only fuel =
      scrape_trials fetch condition intervention other_terms none results_only fuel := by
  unfold scrape_trials
  cases hv : (strTruthy condition || strTruthy intervention || strTruthy other_terms) with
  | false => simp [hv]
  | true =>
    simp only [hv, Bool.not_true, Bool.false_eq_true, if_false]
    exact congrArg Except.ok (scrapeLoop_guard_congr fetch _ (some 0) none
      (fun n => by simp [maxGuard]) fuel DB.empty 0 0 none [])

theorem retryLoop_ok {ρ : Type} (f : Nat → Except SearchErr ρ) (maxA fuel n : Nat)
    (ds : List Nat) (p : ρ) (h : f n = Except.ok p) :
    retryLoop f maxA fuel n ds = ⟨Except.ok p, n, ds⟩ := by
  cases fuel with
  | zero => simp [retryLoop, h]
  | succ m => simp [retryLoop, h]

theorem retryLoop_err_stop {ρ : Type} (f : Nat → Except SearchErr ρ) (maxA fuel n : Nat)
    (ds : List Nat) (e : SearchErr) (h : f n = Except.error e) (hstop : maxA ≤ n) :
    retryLoop f maxA fuel n ds = ⟨Except.error e, n, ds⟩ := by
  cases fuel with
  | zero => simp [retryLoop, h]
  | succ m => simp [retryLoop, h, hstop]

theorem retryLoop_err_next {ρ : Type} (f : Nat → Except SearchErr ρ) (maxA fuel n : Nat)
    (ds : List Nat) (e : SearchErr) (h : f n = Except.error e) (hlt : ¬ maxA ≤ n) :
    retryLoop f maxA (fuel + 1) n ds = retryLoop f maxA fuel (n + 1) (ds ++ [backoffWait n]) := by
  simp [retryLoop, h, hlt]

/-- C5 counterexample: an attempt outcome that is a non-retryable HTTP 400
rejection on every attempt is nevertheless retried — the decorated call runs
3 attempts, not the single attempt the claim's immediate surfacing would
imply. tenacity's default retry predicate retries every exception, and
`search_studies` re-raises `HTTPError` into it. -/
theorem http_error_not_immediate :
    (runSearchRetries (fun _ =>
        (Except.error (SearchErr.httpError 400) : Except SearchErr Json))).attempts = 3 ∧
    ¬ (runSearchRetries (fun _ =>
        (Except.error (SearchErr.httpError 400) : Except SearchErr Json))).attempts = 1 :=
  ⟨rfl, by decide⟩

/-- C5 (amended): a search call whose every attempt fails with a
non-retryable response status is retried like any other failure: all 3
attempts run, with sleeps of 4 and 4 between them, and the error surfaces
only after the final attempt. -/
theorem http_error_retried_three_times (s : Nat) (f : Nat → Except SearchErr Json)
    (hf : ∀ n, f n = Except.error (SearchErr.httpError s)) :
    runSearchRetries f =
      ⟨Except.error (SearchErr.httpError s), 3, [backoffWait 1, backoffWait 2]⟩ ∧
    backoffWait 1 = 4 ∧ backoffWait 2 = 4 := by
  refine ⟨?_, rfl, rfl⟩
  show retryLoop f 3 3 1 [] = _
  rw [retryLoop_err_next f 3 2 1 [] _ (hf 1) (by omega),
    retryLoop_err_next f 3 1 2 _ _ (hf 2) (by omega),
    retryLoop_err_stop f 3 1 3 _ _ (hf 3) (le_refl 3)]
  rfl

theorem http_error_retried_three_times_witness :
    runSearchRetries (fun _ =>
        (Except.error (SearchErr.httpError 503) : Except SearchErr Json)) =
      ⟨Except.error (SearchErr.httpError 503), 3, [backoffWait 1, backoffWait 2]⟩ ∧
    backoffWait 1 = 4 ∧ backoffWait 2 = 4 :=
  http_error_retried_three_times 503
    (fun _ => Except.error (SearchErr.httpError 503)) (fun _ => rfl)

/-- An attempt oracle failing transiently on the first two attempts and
succeeding on the third. -/
def attemptsFailTwice (n : Nat) : Except SearchErr Json :=
  if n ≤ 2 then Except.error SearchErr.transient else Except.ok (Json.num 7)

/-- An attempt oracle failing transiently on every attempt. -/
def attemptsFailAll (_ : Nat) : Except SearchErr Json :=
  Except.error SearchErr.transient

/-- C6 counterexample: for a call that fails its first two attempts, the
delays actually slept are 4 and 4 — `wait_exponential(multiplier=1, min=4,
max=10)` clamps `2^(n-1)` up to the minimum 4 for both reachable sleeps, so
the second delay is not the doubled 8 the claimed sequence
"starting at 4, doubling, capped at 10" prescribes. -/
theorem retry_delays_counterexample :
    (runSearchRetries attemptsFailTwice).delays = [4, 4] ∧
    ¬ (runSearchRetries attemptsFailTwice).delays = [4, 8] :=
  ⟨rfl, by decide⟩

/-- C6 (amended): a call failing twice then succeeding returns the third
attempt's result after exactly 3 attempts; a call failing on all 3 attempts
surfaces the most recent failure after exactly 3 attempts, with no page in
the result. The inter-attempt delays are `backoffWait n = max 4 (min 2^(n-1)
10)`, which evaluates to 4 for both sleeps a 3-attempt budget can perform
(the doubling is clamped away by the minimum of 4). -/
theorem retry_behavior (f : Nat → Except SearchErr Json) (p : Json)
    (e1 e2 e3 : SearchErr) :
    (f 1 = Except.error e1 → f 2 = Except.error e2 → f 3 = Except.ok p →
      runSearchRetries f = ⟨Except.ok p, 3, [backoffWait 1, backoffWait 2]⟩) ∧
    (f 1 = Except.error e1 → f 2 = Except.error e2 → f 3 = Except.error e3 →
      runSearchRetries f = ⟨Except.error e3, 3, [backoffWait 1, backoffWait 2]⟩) ∧
    backoffWait 1 = 4 ∧ backoffWait 2 = 4 := by
  refine ⟨?_, ?_, rfl, rfl⟩
  · intro h1 h2 h3
    show retryLoop f 3 3 1 [] = _
    rw [retryLoop_err_next f 3 2 1 [] _ h1 (by omega),
      retryLoop_err_next f 3 1 2 _ _ h2 (by omega),
      retryLoop_ok f 3 1 3 _ p h3]
    rfl
  · intro h1 h2 h3
    show retryLoop f 3 3 1 [] = _
    rw [retryLoop_err_next f 3 2 1 [] _ h1 (by omega),
      retryLoop_err_next f 3 1 2 _ _ h2 (by omega),
      retryLoop_err_stop f 3 1 3 _ _ h3 (le_refl 3)]
    rfl

theorem retry_behavior_witness :
    runSearchRetries attemptsFailTwice =
      ⟨Except.ok (Json.num 7), 3, [backoffWait 1, backoffWait 2]⟩ ∧
    runSearchRetries attemptsFailAll =
      ⟨Except.error SearchErr.transient, 3, [backoffWait 1, backoffWait 2]⟩ :=
  ⟨(retry_behavior attemptsFailTwice (Json.num 7) SearchErr.transient
      SearchErr.transient SearchErr.transient).1 rfl rfl rfl,
   (retry_behavior attemptsFailAll (Json.num 7) SearchErr.transient
      SearchErr.transient SearchErr.transient).2.1 rfl rfl rfl⟩

/-- C7: Request construction. Every supplied non-empty filter appears in the
outgoing parameters wrapped in double quotes as an exact phrase (`query.cond`,
`query.intr`, `query.term` respectively); `results_only = true` AND-joins the
`AREA[HasResults] true` clause onto an existing `query.term` rather than
replacing it, and only falls back to the bare clause when no free-term filter
was supplied; it never occupies any parameter other than `query.term`
(`Params` has no further entry, and `format`/`pageSize` keep their fixed
values). -/
theorem search_params_construction (condition intervention other_terms page_token :
    Option String) (ro : Bool) :
    (∀ c, condition = some c → c.isEmpty = false →
      (buildParams condition intervention other_terms page_token ro).queryCond =
        some ("\"" ++ c ++ "\"")) ∧
    (∀ i, intervention = some i → i.isEmpty = false →
      (buildParams condition intervention other_terms page_token ro).queryIntr =
        some ("\"" ++ i ++ "\"")) ∧
    (∀ t, other_terms = some t → t.isEmpty = false → ro = false →
      (buildParams condition intervention other_terms page_token ro).queryTerm =
        some ("\"" ++ t ++ "\"")) ∧
    (∀ t, other_terms = some t → t.isEmpty = false → ro = true →
      (buildParams condition intervention other_terms page_token ro).queryTerm =
        some ("\"" ++ t ++ "\"" ++ " AND AREA[HasResults] true")) ∧
    (ro = true → strTruthy other_terms = false →
      (buildParams condition intervention other_terms page_token ro).queryTerm =
        some "AREA[HasResults] true") ∧
    (buildParams condition intervention other_terms page_token ro).format = "json" ∧
    (buildParams condition intervention other_terms page_token ro).pageSize = 100 := by
  refine ⟨?_, ?_, ?_, ?_, ?_, rfl, rfl⟩
  · intro c hc hce
    subst hc
    simp [buildParams, quoted, hce]
  · intro i hi hie
    subst hi
    simp [buildParams, quoted, hie]
  · intro t ht hte hro
    subst ht
    subst hro
    simp [buildParams, quoted, hte]
  · intro t ht hte hro
    subst ht
    subst hro
    simp [buildParams, quoted, hte]
  · intro hro hot
    subst hro
    cases other_terms with
    | none => simp [buildParams]
    | some s =>
      have hse : s.isEmpty = true := by
        simpa [strTruthy] using hot
      simp [buildParams, hse]

theorem search_params_construction_witness :
    ((buildParams (some "diabetes") (some "insulin") (some "pain") none false).queryCond =
      some ("\"" ++ "diabetes" ++ "\"")) ∧
    ((buildParams (some "diabetes") (some "insulin") (some "pain") none false).queryIntr =
      some ("\"" ++ "insulin" ++ "\"")) ∧
    ((buildParams (some "diabetes") (some "insulin") (some "pain") none false).queryTerm =
      some ("\"" ++ "pain" ++ "\"")) ∧
    ((buildParams (some "diabetes") (some "insulin") (some "pain") none true).queryTerm =
      some ("\"" ++ "pain" ++ "\"" ++ " AND AREA[HasResults] true")) ∧
    ((buildParams (some "diabetes") none none none true).queryTerm =
      some "AREA[HasResults] true") :=
  ⟨(search_params_construction (some "diabetes") (some "insulin") (some "pain")
      none false).1 "diabetes" rfl rfl,
   (search_params_construction (some "diabetes") (some "insulin") (some "pain")
      none false).2.1 "insulin" rfl rfl,
   (search_params_construction (some "diabetes") (some "insulin") (some "pain")
      none false).2.2.1 "pain" rfl rfl rfl,
   (search_params_construction (some "diabetes") (some "insulin") (some "pain")
      none true).2.2.2.1 "pain" rfl rfl rfl,
   (search_params_construction (some "diabetes") none none none true).2.2.2.2.1 rfl rfl⟩

/-- C8: Input validation. When `condition`, `intervention` and `other_terms`
are all absent or empty (Python-falsy), `scrape_trials` fails with the
validation error before doing anything else: the result is the error, and it
is identical under any two fetch oracles — no request is ever issued and the
page loop (which owns every database write of the run) is never entered. In
the source the `raise ValueError` at the top of `scrape_trials` likewise
precedes the construction of the HTTP client and of the database
connection. -/
theorem validation_fails_before_io (τ : Type) (fetch fetch2 : Option τ → FetchResult τ)
    (condition intervention other_terms : Option String) (max_trials : Option Nat)
    (results_only : Bool) (fuel : Nat)
    (hc : strTruthy condition = false) (hi : strTruthy intervention = false)
    (ho : strTruthy other_terms = false) :
    scrape_trials fetch condition intervention other_terms max_trials results_only fuel =
      Except.error
        "At least one of condition, intervention, or other_terms must be specified" ∧
    scrape_trials fetch condition intervention other_terms max_trials results_only fuel =
      scrape_trials fetch2 condition intervention other_terms max_trials results_only fuel := by
  constructor <;> simp [scrape_trials, hc, hi, ho]

theorem validation_fails_before_io_witness :
    (scrape_trials (fun _ => FetchResult.err : Option Unit → FetchResult Unit) none
        (some "") none (some 5) false 5 =
      Except.error
        "At least one of condition, intervention, or other_terms must be specified") ∧
    scrape_trials (fun _ => FetchResult.err : Option Unit → FetchResult Unit) none
        (some "") none (some 5) false 5 =
      scrape_trials (fun _ => FetchResult.ok ⟨none, none⟩ : Option Unit → FetchResult Unit)
        none (some "") none (some 5) false 5 :=
  validation_fails_before_io Unit (fun _ => FetchResult.err)
    (fun _ => FetchResult.ok ⟨none, none⟩) none (some "") none (some 5) false 5
    rfl rfl rfl
